import Mathlib

/-!
Shallow embedding of the HR management service (`main.py`): the employee
registry, leave-balance ledger, calendar utility and leave-request state
machine, together with the in-memory initial database.  Python objects are
modelled as Lean structures, Python `int` as `Int` (or `Nat` where the source
only ever produces non-negative values), `datetime.date` as its proleptic
Gregorian ordinal (`Nat`, as produced by CPython `date.toordinal`), and each
FastAPI endpoint as a pure function from the state to `Except` of an
HTTP-style error or a result paired with the successor state.  Every `raise
HTTPException` in the source happens before any mutation, so the error arm of
`Except` carries no state.
-/

namespace HR

/-- Python `LeaveStatus` enum. -/
inductive LeaveStatus where
  | pending
  | approved
  | rejected
deriving DecidableEq, Repr

/-- Python `LeaveType` enum. -/
inductive LeaveType where
  | vacation
  | sick
  | personal
deriving DecidableEq, Repr

/-- The `.value` attribute of a `LeaveType` member. -/
def LeaveType.value : LeaveType → String
  | .vacation => "vacation"
  | .sick => "sick"
  | .personal => "personal"

/-- Python `LeaveBalance` model: `allocated: int = 15`, `used: int = 0`. -/
structure LeaveBalance where
  allocated : Int := 15
  used : Int := 0
deriving DecidableEq, Repr

/-- The `remaining` property: `allocated - used`. -/
def LeaveBalance.remaining (b : LeaveBalance) : Int :=
  b.allocated - b.used

/-- Python `EmployeeBalances` model with its per-category default factories
(vacation 15, sick 10, personal 5). -/
structure EmployeeBalances where
  vacation : LeaveBalance := {}
  sick : LeaveBalance := { allocated := 10 }
  personal : LeaveBalance := { allocated := 5 }
deriving DecidableEq, Repr

/-- The dynamic `getattr(employee.leave_balances, leave_type.value)` lookup,
made an explicit total match over the closed category set. -/
def EmployeeBalances.get (bs : EmployeeBalances) : LeaveType → LeaveBalance
  | .vacation => bs.vacation
  | .sick => bs.sick
  | .personal => bs.personal

/-- Writing back the category field that `EmployeeBalances.get` reads
(the effect of mutating the aliased `balance` object in Python). -/
def EmployeeBalances.set (bs : EmployeeBalances) : LeaveType → LeaveBalance → EmployeeBalances
  | .vacation, b => { bs with vacation := b }
  | .sick, b => { bs with sick := b }
  | .personal, b => { bs with personal := b }

/-- Python `Employee` model. -/
structure Employee where
  id : Nat
  name : String
  position : String
  department : String
  leave_balances : EmployeeBalances := {}
deriving DecidableEq, Repr

/-- Python `CreateEmployee` payload. -/
structure CreateEmployee where
  name : String
  position : String
  department : String
deriving DecidableEq, Repr

/-- Python `LeaveRequest` model; dates are CPython `date.toordinal` values. -/
structure LeaveRequest where
  id : Nat
  employee_id : Nat
  leave_type : LeaveType
  start_date : Nat
  end_date : Nat
  reason : String
  status : LeaveStatus := .pending
deriving DecidableEq, Repr

/-- Python `CreateLeaveRequest` payload. -/
structure CreateLeaveRequest where
  leave_type : LeaveType
  start_date : Nat
  end_date : Nat
  reason : String
deriving DecidableEq, Repr

/-- The `HTTPException` raised by the endpoints: status code plus detail. -/
structure HTTPError where
  status_code : Nat
  detail : String
deriving DecidableEq, Repr

/-- The two in-memory databases, `employee_db` and `leave_db`. -/
structure AppState where
  employee_db : List Employee
  leave_db : List LeaveRequest
deriving DecidableEq, Repr

/-! ### Calendar utility (CPython `datetime` semantics) -/

/-- CPython leap-year test for the proleptic Gregorian calendar. -/
def isLeapYear (y : Nat) : Bool :=
  y % 4 == 0 && (y % 100 != 0 || y % 400 == 0)

/-- Days in month `m` of year `y` (CPython `_days_in_month`). -/
def daysInMonth (y m : Nat) : Nat :=
  if m == 2 then (if isLeapYear y then 29 else 28)
  else if m == 4 || m == 6 || m == 9 || m == 11 then 30
  else 31

/-- Days in year `y` before the first of month `m` (CPython `_days_before_month`). -/
def daysBeforeMonth (y m : Nat) : Nat :=
  (List.range (m - 1)).foldl (fun acc i => acc + daysInMonth y (i + 1)) 0

/-- CPython `date(y, m, d).toordinal()`: day 1 is 0001-01-01. -/
def toOrdinal (y m d : Nat) : Nat :=
  (y - 1) * 365 + (y - 1) / 4 - (y - 1) / 100 + (y - 1) / 400 + daysBeforeMonth y m + d

/-- CPython `date.weekday()` of the date with the given ordinal:
Monday = 0 through Sunday = 6 (0001-01-01 is a Monday). -/
def weekday (o : Nat) : Nat :=
  (o + 6) % 7

/-- The source `calculate_business_days`: 0 when `start > end`, otherwise the
inclusive day span minus the count of Saturdays and Sundays in it. -/
def calculate_business_days (start_date end_date : Nat) : Nat :=
  if start_date > end_date then 0
  else
    let days := end_date - start_date + 1
    let weekend_days := (List.range days).countP (fun i => weekday (start_date + i) ≥ 5)
    days - weekend_days

/-! ### Helper functions and generic list surgery -/

/-- Replace the first element satisfying `p` by its image under `f`; models an
in-place mutation of the object Python found by a first-match scan. -/
def updateFirst (p : α → Bool) (f : α → α) : List α → List α
  | [] => []
  | a :: l => if p a then f a :: l else a :: updateFirst p f l

/-- First employee in the list with the given id (the `for`/`if` scan). -/
def findEmp (db : List Employee) (employee_id : Nat) : Option Employee :=
  db.find? (fun e => e.id == employee_id)

/-- First leave request in the list with the given id. -/
def findReq (db : List LeaveRequest) (request_id : Nat) : Option LeaveRequest :=
  db.find? (fun r => r.id == request_id)

/-- The source `find_employee` helper: the employee or a 404. -/
def find_employee (db : List Employee) (employee_id : Nat) : Except HTTPError Employee :=
  match findEmp db employee_id with
  | some e => .ok e
  | none => .error ⟨404, "Employee with ID " ++ toString employee_id ++ " not found"⟩

/-- Python `max(x.id for x in db)` for the non-empty lists it is applied to
(ids are naturals, so folding from 0 agrees with Python `max`). -/
def maxId (ids : List Nat) : Nat :=
  ids.foldl max 0

/-- The id chosen for a new employee: `max existing + 1`, or 1 if empty. -/
def newEmpId (db : List Employee) : Nat :=
  if db.isEmpty then 1 else maxId (db.map Employee.id) + 1

/-- The id chosen for a new leave request: `max existing + 1`, or 1 if empty. -/
def newReqId (db : List LeaveRequest) : Nat :=
  if db.isEmpty then 1 else maxId (db.map LeaveRequest.id) + 1

/-! ### Endpoints -/

/-- POST `/employees`: always succeeds, appends a fresh-default-balance
employee under the next id. -/
def create_employee (st : AppState) (employee_data : CreateEmployee) : Employee × AppState :=
  let new_employee : Employee :=
    { id := newEmpId st.employee_db
      name := employee_data.name
      position := employee_data.position
      department := employee_data.department
      leave_balances := {} }
  (new_employee, { st with employee_db := st.employee_db ++ [new_employee] })

/-- PUT `/employees/{id}`: overwrite name, position, department of the found
employee in place; balances untouched. -/
def update_employee (st : AppState) (employee_id : Nat) (updated_data : CreateEmployee) :
    Except HTTPError (Employee × AppState) :=
  match find_employee st.employee_db employee_id with
  | .error e => .error e
  | .ok employee =>
    let employee' := { employee with
      name := updated_data.name
      position := updated_data.position
      department := updated_data.department }
    let db' :=
      updateFirst (fun e => e.id == employee_id)
        (fun e => { e with
          name := updated_data.name
          position := updated_data.position
          department := updated_data.department })
        st.employee_db
    .ok (employee', { st with employee_db := db' })

/-- DELETE `/employees/{id}`: `list.remove` of the employee object found by
id, i.e. erasure of the first value-equal element. -/
def delete_employee (st : AppState) (employee_id : Nat) : Except HTTPError AppState :=
  match find_employee st.employee_db employee_id with
  | .error e => .error e
  | .ok employee_to_delete =>
    .ok { st with employee_db := st.employee_db.erase employee_to_delete }

/-- POST `/employees/{id}/leave`: validate the range and the remaining quota,
then append a `Pending` request under the next id.  Creation never touches a
balance. -/
def create_leave_request (st : AppState) (employee_id : Nat)
    (request_data : CreateLeaveRequest) : Except HTTPError (LeaveRequest × AppState) :=
  match find_employee st.employee_db employee_id with
  | .error e => .error e
  | .ok employee =>
    let leave_duration := calculate_business_days request_data.start_date request_data.end_date
    if leave_duration ≤ 0 then
      .error ⟨400, "End date must be after start date."⟩
    else
      let balance := employee.leave_balances.get request_data.leave_type
      if balance.remaining < (leave_duration : Int) then
        .error ⟨400, "Insufficient " ++ request_data.leave_type.value ++
          " leave balance. Required: " ++ toString leave_duration ++
          ", Available: " ++ toString balance.remaining⟩
      else
        let new_request : LeaveRequest :=
          { id := newReqId st.leave_db
            employee_id := employee_id
            leave_type := request_data.leave_type
            start_date := request_data.start_date
            end_date := request_data.end_date
            reason := request_data.reason
            status := .pending }
        .ok (new_request, { st with leave_db := st.leave_db ++ [new_request] })

/-- Committing a status transition: write the (possibly adjusted) category
balance back into the found employee and the new status into the found
request, exactly the two in-place mutations the source performs before
returning. -/
def commitStatus (st : AppState) (request_id : Nat) (new_status : LeaveStatus)
    (request_to_update : LeaveRequest) (newBalance : LeaveBalance) :
    LeaveRequest × AppState :=
  let db' :=
    updateFirst (fun e => e.id == request_to_update.employee_id)
      (fun e => { e with leave_balances :=
        e.leave_balances.set request_to_update.leave_type newBalance })
      st.employee_db
  let leave' :=
    updateFirst (fun r => r.id == request_id)
      (fun r => { r with status := new_status })
      st.leave_db
  ({ request_to_update with status := new_status },
    { employee_db := db', leave_db := leave' })

/-- PATCH `/leave/{id}`: find the request, resolve its employee, and reconcile
the category balance: credit on a transition into `approved` (guarded by the
remaining-quota check), reclaim on a transition out of `approved`, otherwise
leave the ledger alone; finally commit the new status. -/
def update_leave_request_status (st : AppState) (request_id : Nat)
    (new_status : LeaveStatus) : Except HTTPError (LeaveRequest × AppState) :=
  match findReq st.leave_db request_id with
  | none => .error ⟨404, "Leave request with ID " ++ toString request_id ++ " not found"⟩
  | some request_to_update =>
    match find_employee st.employee_db request_to_update.employee_id with
    | .error e => .error e
    | .ok employee =>
      let leave_duration := calculate_business_days request_to_update.start_date request_to_update.end_date
      let balance := employee.leave_balances.get request_to_update.leave_type
      let is_newly_approved := new_status = .approved ∧ request_to_update.status ≠ .approved
      let was_previously_approved := request_to_update.status = .approved ∧ new_status ≠ .approved
      if is_newly_approved then
        if balance.remaining < (leave_duration : Int) then
          .error ⟨400, "Cannot approve. Employee has insufficient " ++
            request_to_update.leave_type.value ++ " balance."⟩
        else
          .ok (commitStatus st request_id new_status request_to_update
            { balance with used := balance.used + leave_duration })
      else if was_previously_approved then
        .ok (commitStatus st request_id new_status request_to_update
          { balance with used := balance.used - leave_duration })
      else
        .ok (commitStatus st request_id new_status request_to_update balance)

/-- The state the databases are left in by a PATCH `/leave/{id}` call: the
committed successor state on success; on failure the exception propagates
before any assignment, so the databases keep their previous contents. -/
def runUpdateStatus (st : AppState) (request_id : Nat) (new_status : LeaveStatus) : AppState :=
  match update_leave_request_status st request_id new_status with
  | .ok (_, st') => st'
  | .error _ => st

/-! ### The initial in-memory databases -/

/-- First seeded employee of the source's `employee_db` literal. -/
def alice : Employee :=
  { id := 1, name := "Alice Smith", position := "Software Engineer",
    department := "Technology" }

/-- Second seeded employee of the source's `employee_db` literal. -/
def bob : Employee :=
  { id := 2, name := "Bob Johnson", position := "HR Manager",
    department := "Human Resources",
    leave_balances :=
      { vacation := { allocated := 20, used := 5 }
        sick := { allocated := 10, used := 1 } } }

/-- The initial `employee_db` literal of the source. -/
def initialEmployees : List Employee := [alice, bob]

/-- The one seeded leave request of the source's `leave_db` literal: an
already-approved three-business-day vacation of employee 2. -/
def initialRequest : LeaveRequest :=
  { id := 1, employee_id := 2, leave_type := .vacation,
    start_date := toOrdinal 2025 10 20, end_date := toOrdinal 2025 10 22,
    reason := "Family vacation.", status := .approved }

/-- The initial `leave_db` literal of the source. -/
def initialRequests : List LeaveRequest := [initialRequest]

/-- The state the process starts in. -/
def initialState : AppState :=
  { employee_db := initialEmployees, leave_db := initialRequests }

/-! ### Reachability -/

/-- One mutating API call, relating a state to its successor (read-only
endpoints never change the state). -/
inductive Step : AppState → AppState → Prop where
  | createEmployee (st st' : AppState) (d : CreateEmployee) (e : Employee)
      (h : create_employee st d = (e, st')) : Step st st'
  | updateEmployee (st st' : AppState) (employee_id : Nat) (d : CreateEmployee) (e : Employee)
      (h : update_employee st employee_id d = .ok (e, st')) : Step st st'
  | deleteEmployee (st st' : AppState) (employee_id : Nat)
      (h : delete_employee st employee_id = .ok st') : Step st st'
  | createLeave (st st' : AppState) (employee_id : Nat) (d : CreateLeaveRequest) (r : LeaveRequest)
      (h : create_leave_request st employee_id d = .ok (r, st')) : Step st st'
  | updateLeaveStatus (st st' : AppState) (request_id : Nat) (ns : LeaveStatus) (r : LeaveRequest)
      (h : update_leave_request_status st request_id ns = .ok (r, st')) : Step st st'

/-- States reachable from the initial databases by any sequence of API calls. -/
inductive Reachable : AppState → Prop where
  | init : Reachable initialState
  | step {st st' : AppState} (h : Reachable st) (hs : Step st st') : Reachable st'

/-! ### Observations and spec-side reference definitions -/

/-- The `used` counter of the given category of the (first) employee with the
given id, as a GET on the balance endpoint would report it. -/
def empUsed (st : AppState) (employee_id : Nat) (lt : LeaveType) : Option Int :=
  (findEmp st.employee_db employee_id).map (fun e => (e.leave_balances.get lt).used)

/-- Reference count written from the spec's words: the number of days in the
inclusive range whose day-of-week is Monday through Friday. -/
def weekdayCount (start_date end_date : Nat) : Nat :=
  (List.range (end_date - start_date + 1)).countP
    (fun i => weekday (start_date + i) < 5)

/-! ### Concrete executions used to exercise the endpoints -/

/-- Profile payload for a freshly created employee. -/
def carolPayload : CreateEmployee :=
  { name := "Carol Davis", position := "Analyst", department := "Finance" }

/-- The employee `create_employee` builds from `carolPayload` once employee 2
has been deleted: it receives the recycled id 2 and fresh default balances. -/
def carol : Employee :=
  { id := 2, name := "Carol Davis", position := "Analyst", department := "Finance" }

/-- State after deleting employee 2 from the initial databases. -/
def bugSt1 : AppState := { employee_db := [alice], leave_db := initialRequests }

/-- State after then creating `carolPayload` (Carol receives id 2). -/
def bugSt2 : AppState := { employee_db := [alice, carol], leave_db := initialRequests }

/-- State after then rejecting the orphaned approved request 1: the reclaim
hits Carol's fresh vacation balance and drives `used` to `-3`. -/
def bugSt3 : AppState :=
  { employee_db :=
      [alice,
       { carol with leave_balances :=
          { vacation := { allocated := 15, used := -3 }
            sick := { allocated := 10 }
            personal := { allocated := 5 } } }]
    leave_db := [{ initialRequest with status := .rejected }] }

/-- A 15-business-day vacation request payload for employee 1. -/
def bigLeavePayload : CreateLeaveRequest :=
  { leave_type := .vacation, start_date := toOrdinal 2025 10 20,
    end_date := toOrdinal 2025 11 7, reason := "Annual leave" }

/-- A 10-business-day vacation request payload for employee 1. -/
def secondLeavePayload : CreateLeaveRequest :=
  { leave_type := .vacation, start_date := toOrdinal 2025 10 20,
    end_date := toOrdinal 2025 10 31, reason := "Extra leave" }

/-- The request `create_leave_request` builds from `bigLeavePayload`. -/
def bigLeaveReq : LeaveRequest :=
  { id := 2, employee_id := 1, leave_type := .vacation,
    start_date := toOrdinal 2025 10 20, end_date := toOrdinal 2025 11 7,
    reason := "Annual leave", status := .pending }

/-- The request `create_leave_request` builds from `secondLeavePayload`. -/
def secondLeaveReq : LeaveRequest :=
  { id := 3, employee_id := 1, leave_type := .vacation,
    start_date := toOrdinal 2025 10 20, end_date := toOrdinal 2025 10 31,
    reason := "Extra leave", status := .pending }

/-- State after filing `bigLeavePayload` for employee 1. -/
def msgSt1 : AppState :=
  { employee_db := initialEmployees, leave_db := [initialRequest, bigLeaveReq] }

/-- State after also filing `secondLeavePayload` for employee 1. -/
def msgSt2 : AppState :=
  { employee_db := initialEmployees,
    leave_db := [initialRequest, bigLeaveReq, secondLeaveReq] }

/-- State after approving request 2: Alice's vacation quota is now exhausted
(`used = 15` of 15), so approving request 3 must fail. -/
def msgSt3 : AppState :=
  { employee_db :=
      [{ alice with leave_balances :=
          { vacation := { allocated := 15, used := 15 }
            sick := { allocated := 10 }
            personal := { allocated := 5 } } },
       bob]
    leave_db := [initialRequest, { bigLeaveReq with status := .approved }, secondLeaveReq] }

/-- Remaining quota of the given category of the (first) employee with the
given id, as reported by the balance endpoint. -/
def empRemaining (st : AppState) (employee_id : Nat) (lt : LeaveType) : Option Int :=
  (findEmp st.employee_db employee_id).map (fun e => (e.leave_balances.get lt).remaining)

/-- Payload for yet another employee, used to exhibit id recycling. -/
def danPayload : CreateEmployee :=
  { name := "Dan Lee", position := "Clerk", department := "Operations" }

/-- The employee `create_employee` builds from `danPayload` on the initial
databases: it receives id 3. -/
def dan : Employee :=
  { id := 3, name := "Dan Lee", position := "Clerk", department := "Operations" }

/-- State after creating `danPayload` on the initial databases. -/
def danSt : AppState :=
  { employee_db := [alice, bob, dan], leave_db := initialRequests }

/-! ## Generic lemmas about the list surgery -/

theorem updateFirst_map {α β : Type} (p : α → Bool) (f : α → α) (g : α → β)
    (hg : ∀ a, g (f a) = g a) (l : List α) :
    (updateFirst p f l).map g = l.map g := by
  induction l with
  | nil => rfl
  | cons a l ih =>
    by_cases h : p a <;> simp [updateFirst, h, hg, ih]

theorem find?_updateFirst {α : Type} (p : α → Bool) (f : α → α)
    (hpf : ∀ a, p a = true → p (f a) = true) (l : List α) :
    (updateFirst p f l).find? p = (l.find? p).map f := by
  induction l with
  | nil => rfl
  | cons a l ih =>
    by_cases h : p a
    · simp [updateFirst, h, List.find?_cons_of_pos, hpf a h]
    · simp [updateFirst, h, List.find?_cons_of_neg, ih]

theorem updateFirst_eq_self {α : Type} (p : α → Bool) (f : α → α) (l : List α) (a : α)
    (hfind : l.find? p = some a) (hfa : f a = a) : updateFirst p f l = l := by
  induction l with
  | nil => simp at hfind
  | cons b l ih =>
    by_cases h : p b
    · rw [List.find?_cons_of_pos _ h] at hfind
      injection hfind with h'
      subst h'
      simp [updateFirst, h, hfa]
    · rw [List.find?_cons_of_neg _ h] at hfind
      simp [updateFirst, h, ih hfind]

theorem foldl_max_init_le (l : List Nat) (acc : Nat) : acc ≤ l.foldl max acc := by
  induction l generalizing acc with
  | nil => exact Nat.le_refl _
  | cons b l ih => exact Nat.le_trans (Nat.le_max_left acc b) (ih (max acc b))

theorem le_foldl_max (l : List Nat) (a : Nat) (ha : a ∈ l) (acc : Nat) :
    a ≤ l.foldl max acc := by
  induction l generalizing acc with
  | nil => cases ha
  | cons b l ih =>
    rcases List.mem_cons.mp ha with h | h
    · subst h
      exact Nat.le_trans (Nat.le_max_right acc a) (foldl_max_init_le l (max acc a))
    · exact ih h (max acc b)

theorem id_lt_newEmpId (db : List Employee) (e : Employee) (he : e ∈ db) :
    e.id < newEmpId db := by
  have hne : db.isEmpty = false := by cases db with
    | nil => cases he
    | cons a l => rfl
  have hle : e.id ≤ maxId (db.map Employee.id) :=
    le_foldl_max _ _ (List.mem_map_of_mem _ he) 0
  simp only [newEmpId, hne, Bool.false_eq_true, if_false]
  omega

theorem id_lt_newReqId (db : List LeaveRequest) (r : LeaveRequest) (hr : r ∈ db) :
    r.id < newReqId db := by
  have hne : db.isEmpty = false := by cases db with
    | nil => cases hr
    | cons a l => rfl
  have hle : r.id ≤ maxId (db.map LeaveRequest.id) :=
    le_foldl_max _ _ (List.mem_map_of_mem _ hr) 0
  simp only [newReqId, hne, Bool.false_eq_true, if_false]
  omega

theorem nodup_append_singleton {β : Type} {l : List β} {x : β}
    (h : l.Nodup) (hx : x ∉ l) : (l ++ [x]).Nodup := by
  simp [List.nodup_append, h, hx]

theorem countP_not_add {α : Type} (p : α → Bool) (l : List α) :
    l.countP p + l.countP (fun a => !(p a)) = l.length := by
  induction l with
  | nil => rfl
  | cons a l ih =>
    by_cases h : p a <;> simp [List.countP_cons, h, ← ih] <;> omega

/-! ## Lemmas about the balance field access -/

theorem get_set (bs : EmployeeBalances) (lt : LeaveType) (b : LeaveBalance) :
    (bs.set lt b).get lt = b := by
  cases lt <;> rfl

theorem set_get (bs : EmployeeBalances) (lt : LeaveType) :
    bs.set lt (bs.get lt) = bs := by
  cases lt <;> rfl

/-! ## Behaviour of the status-update endpoint -/

theorem updateStatus_spec (st : AppState) (rid : Nat) (ns : LeaveStatus)
    (r : LeaveRequest) (emp : Employee)
    (hr : findReq st.leave_db rid = some r)
    (he : findEmp st.employee_db r.employee_id = some emp) :
    update_leave_request_status st rid ns =
      (if ns = .approved ∧ r.status ≠ .approved then
        if (emp.leave_balances.get r.leave_type).remaining <
            (calculate_business_days r.start_date r.end_date : Int) then
          .error ⟨400, "Cannot approve. Employee has insufficient " ++
            r.leave_type.value ++ " balance."⟩
        else
          .ok (commitStatus st rid ns r
            { emp.leave_balances.get r.leave_type with
              used := (emp.leave_balances.get r.leave_type).used +
                calculate_business_days r.start_date r.end_date })
      else if r.status = .approved ∧ ns ≠ .approved then
        .ok (commitStatus st rid ns r
          { emp.leave_balances.get r.leave_type with
            used := (emp.leave_balances.get r.leave_type).used -
              calculate_business_days r.start_date r.end_date })
      else
        .ok (commitStatus st rid ns r (emp.leave_balances.get r.leave_type))) := by
  simp only [update_leave_request_status, find_employee, hr, he]

theorem commitStatus_fst (st : AppState) (rid : Nat) (ns : LeaveStatus)
    (r : LeaveRequest) (nb : LeaveBalance) :
    (commitStatus st rid ns r nb).1 = { r with status := ns } := rfl

theorem findEmp_updateFirst_balance (db : List Employee) (eid : Nat) (lt : LeaveType)
    (nb : LeaveBalance) :
    findEmp (updateFirst (fun e => e.id == eid)
      (fun e => { e with leave_balances := e.leave_balances.set lt nb }) db) eid =
      (findEmp db eid).map
        (fun e => { e with leave_balances := e.leave_balances.set lt nb }) := by
  exact find?_updateFirst (fun e => e.id == eid)
    (fun e => { e with leave_balances := e.leave_balances.set lt nb })
    (fun a h => h) db

theorem commitStatus_findEmp (st : AppState) (rid : Nat) (ns : LeaveStatus)
    (r : LeaveRequest) (nb : LeaveBalance) :
    findEmp (commitStatus st rid ns r nb).2.employee_db r.employee_id =
      (findEmp st.employee_db r.employee_id).map
        (fun e => { e with leave_balances := e.leave_balances.set r.leave_type nb }) := by
  exact find?_updateFirst (fun e => e.id == r.employee_id)
    (fun e => { e with leave_balances := e.leave_balances.set r.leave_type nb })
    (fun a h => h) st.employee_db

theorem commitStatus_findReq (st : AppState) (rid : Nat) (ns : LeaveStatus)
    (r : LeaveRequest) (nb : LeaveBalance) :
    findReq (commitStatus st rid ns r nb).2.leave_db rid =
      (findReq st.leave_db rid).map (fun q => { q with status := ns }) := by
  exact find?_updateFirst (fun q => q.id == rid)
    (fun q => { q with status := ns }) (fun a h => h) st.leave_db

/-! ## Inversion of successful endpoint calls -/

theorem create_employee_inv (st : AppState) (d : CreateEmployee) :
    (create_employee st d).1.id = newEmpId st.employee_db ∧
    (create_employee st d).2.employee_db = st.employee_db ++ [(create_employee st d).1] ∧
    (create_employee st d).2.leave_db = st.leave_db :=
  ⟨rfl, rfl, rfl⟩

theorem update_employee_ok_inv {st st' : AppState} {e : Employee} {eid : Nat}
    {d : CreateEmployee} (h : update_employee st eid d = .ok (e, st')) :
    st'.employee_db = updateFirst (fun a => a.id == eid)
      (fun a => { a with name := d.name, position := d.position, department := d.department })
      st.employee_db ∧ st'.leave_db = st.leave_db := by
  unfold update_employee find_employee at h
  cases hf : findEmp st.employee_db eid with
  | none => rw [hf] at h; cases h
  | some emp =>
    rw [hf] at h
    simp only [Except.ok.injEq, Prod.mk.injEq] at h
    obtain ⟨-, rfl⟩ := h
    exact ⟨rfl, rfl⟩

theorem delete_employee_ok_inv {st st' : AppState} {eid : Nat}
    (h : delete_employee st eid = .ok st') :
    ∃ emp, st'.employee_db = st.employee_db.erase emp ∧ st'.leave_db = st.leave_db := by
  unfold delete_employee find_employee at h
  cases hf : findEmp st.employee_db eid with
  | none => rw [hf] at h; cases h
  | some emp =>
    rw [hf] at h
    simp only [Except.ok.injEq] at h
    exact ⟨emp, by rw [← h], by rw [← h]⟩

theorem create_leave_request_ok_inv {st st' : AppState} {r : LeaveRequest} {eid : Nat}
    {d : CreateLeaveRequest} (h : create_leave_request st eid d = .ok (r, st')) :
    r.id = newReqId st.leave_db ∧ st'.employee_db = st.employee_db ∧
    st'.leave_db = st.leave_db ++ [r] := by
  cases hf : findEmp st.employee_db eid with
  | none => simp only [create_leave_request, find_employee, hf] at h; cases h
  | some emp =>
    simp only [create_leave_request, find_employee, hf] at h
    split at h
    · cases h
    · split at h
      · cases h
      · simp only [Except.ok.injEq, Prod.mk.injEq] at h
        obtain ⟨h1, rfl⟩ := h
        subst h1
        exact ⟨rfl, rfl, rfl⟩

theorem update_status_ok_inv {st st' : AppState} {r' : LeaveRequest} {rid : Nat}
    {ns : LeaveStatus} (h : update_leave_request_status st rid ns = .ok (r', st')) :
    ∃ req nb, findReq st.leave_db rid = some req ∧
      st'.employee_db = updateFirst (fun e => e.id == req.employee_id)
        (fun e => { e with leave_balances := e.leave_balances.set req.leave_type nb })
        st.employee_db ∧
      st'.leave_db = updateFirst (fun q => q.id == rid)
        (fun q => { q with status := ns }) st.leave_db := by
  cases hq : findReq st.leave_db rid with
  | none => simp only [update_leave_request_status, find_employee, hq] at h; cases h
  | some req =>
    cases hf : findEmp st.employee_db req.employee_id with
    | none => simp only [update_leave_request_status, find_employee, hq, hf] at h; cases h
    | some emp =>
      simp only [update_leave_request_status, find_employee, hq, hf] at h
      split at h
      · split at h
        · cases h
        · simp only [Except.ok.injEq, Prod.mk.injEq] at h
          obtain ⟨-, rfl⟩ := h
          exact ⟨req, _, rfl, rfl, rfl⟩
      · split at h
        · simp only [Except.ok.injEq, Prod.mk.injEq] at h
          obtain ⟨-, rfl⟩ := h
          exact ⟨req, _, rfl, rfl, rfl⟩
        · simp only [Except.ok.injEq, Prod.mk.injEq] at h
          obtain ⟨-, rfl⟩ := h
          exact ⟨req, _, rfl, rfl, rfl⟩

/-! ## Small string facts used for the error-message claims -/

theorem mem_data_of_append (s p t q : String) (h : s = p ++ t ++ q) (c : Char)
    (hc : c ∈ t.data) : c ∈ s.data := by
  subst h
  simp only [String.data_append, List.mem_append]
  exact Or.inl (Or.inr hc)

theorem insuff_ne_invalid (x : String) :
    ("Insufficient " ++ x) ≠ "End date must be after start date." := by
  intro h
  have h1 : ("Insufficient " ++ x).data.head? = some 'I' := by
    rw [String.data_append]; rfl
  rw [h] at h1
  exact absurd h1 (by decide)

/-! ## The claims -/

/-- C7: `calculate_business_days` returns 0 whenever `start > end`, and
otherwise returns the number of days in the inclusive range whose day of week
is Monday through Friday; in particular it maps 2025-10-20 Mon .. 2025-10-22
Wed to 3 and the weekend 2025-10-18 Sat .. 2025-10-19 Sun to 0. -/
theorem business_days_spec (s e : Nat) :
    (s > e → calculate_business_days s e = 0) ∧
    (s ≤ e → calculate_business_days s e = weekdayCount s e) ∧
    calculate_business_days (toOrdinal 2025 10 20) (toOrdinal 2025 10 22) = 3 ∧
    calculate_business_days (toOrdinal 2025 10 18) (toOrdinal 2025 10 19) = 0 := by
  refine ⟨fun h => by simp [calculate_business_days, h], fun h => ?_, by decide, by decide⟩
  simp only [calculate_business_days, weekdayCount]
  rw [if_neg (Nat.not_lt.mpr h)]
  have hcomp : (fun i => decide (weekday (s + i) < 5)) =
      (fun i => !(decide (weekday (s + i) ≥ 5))) := by
    funext i
    by_cases hw : weekday (s + i) ≥ 5
    · simp [hw, Nat.not_lt.mpr hw]
    · simp [hw, Nat.lt_of_not_le hw]
  rw [hcomp]
  have hadd := countP_not_add (fun i => decide (weekday (s + i) ≥ 5)) (List.range (e - s + 1))
  simp only [List.length_range] at hadd
  omega

/-- Witness for C7 at the concrete weekday range of the spec example. -/
theorem business_days_spec_check :
    toOrdinal 2025 10 20 ≤ toOrdinal 2025 10 22 ∧
    calculate_business_days (toOrdinal 2025 10 20) (toOrdinal 2025 10 22) =
      weekdayCount (toOrdinal 2025 10 20) (toOrdinal 2025 10 22) :=
  ⟨by decide, (business_days_spec (toOrdinal 2025 10 20) (toOrdinal 2025 10 22)).2.1 (by decide)⟩

/-- C2 counterexample: from the initial databases, creating an employee
assigns id 3, deleting employee 3 returns to the initial databases, and the
next creation assigns id 3 again — an id is reassigned after its employee was
deleted, so assigned ids are not strictly increasing over time and ids are
reused. -/
theorem employee_id_reused_after_delete :
    create_employee initialState danPayload = (dan, danSt) ∧
    delete_employee danSt 3 = .ok initialState ∧
    (create_employee initialState danPayload).1.id = dan.id :=
  ⟨rfl, rfl, rfl⟩

theorem newEmpId_append_new (db : List Employee) (e : Employee)
    (hid : e.id = newEmpId db) : newEmpId (db ++ [e]) = newEmpId db + 1 := by
  cases db with
  | nil =>
    have h1 : e.id = 1 := hid
    simp [newEmpId, maxId, h1]
  | cons a l =>
    have hid' : e.id = List.foldl max (max 0 a.id) (l.map Employee.id) + 1 := by
      rw [hid]
      simp [newEmpId, maxId]
    simp only [newEmpId, maxId, List.cons_append, List.isEmpty_cons, Bool.false_eq_true,
      if_false, List.map_cons, List.map_append, List.foldl_cons, List.foldl_append,
      List.map_nil, List.foldl_nil]
    rw [hid', Nat.max_eq_right (Nat.le_succ _)]

/-- C2 (amended): a newly assigned employee id equals max existing id + 1 (or
1 if the store is empty) and strictly exceeds every id currently present, and
two consecutive creations with no deletion in between assign strictly
increasing ids; ids can however be reassigned once the employee holding the
maximal id is deleted. -/
theorem new_employee_id_exceeds_existing (st : AppState) (d d2 : CreateEmployee) :
    (create_employee st d).1.id =
      (if st.employee_db.isEmpty then 1 else maxId (st.employee_db.map Employee.id) + 1) ∧
    (∀ e ∈ st.employee_db, e.id < (create_employee st d).1.id) ∧
    (create_employee (create_employee st d).2 d2).1.id = (create_employee st d).1.id + 1 := by
  refine ⟨rfl, fun e he => id_lt_newEmpId st.employee_db e he, ?_⟩
  show newEmpId (st.employee_db ++ [(create_employee st d).1]) = newEmpId st.employee_db + 1
  exact newEmpId_append_new st.employee_db _ rfl

/-- C9: updating the status of a stored leave request whose employee id does
not resolve in the registry fails with a 404 naming the missing employee id
and leaves the databases (the request's status and every balance) unchanged. -/
theorem orphaned_request_update_not_found (st : AppState) (rid : Nat) (r : LeaveRequest)
    (ns : LeaveStatus)
    (hr : findReq st.leave_db rid = some r)
    (he : findEmp st.employee_db r.employee_id = none) :
    update_leave_request_status st rid ns =
      .error ⟨404, "Employee with ID " ++ toString r.employee_id ++ " not found"⟩ ∧
    runUpdateStatus st rid ns = st ∧
    (∃ p q : String, "Employee with ID " ++ toString r.employee_id ++ " not found" =
      p ++ toString r.employee_id ++ q) := by
  have h1 : update_leave_request_status st rid ns =
      .error ⟨404, "Employee with ID " ++ toString r.employee_id ++ " not found"⟩ := by
    simp only [update_leave_request_status, find_employee, hr, he]
  refine ⟨h1, ?_, ⟨"Employee with ID ", " not found", rfl⟩⟩
  simp only [runUpdateStatus, h1]

theorem createLeave_spec (st : AppState) (eid : Nat) (data : CreateLeaveRequest)
    (emp : Employee) (he : findEmp st.employee_db eid = some emp) :
    create_leave_request st eid data =
      (if calculate_business_days data.start_date data.end_date ≤ 0 then
        .error ⟨400, "End date must be after start date."⟩
      else if (emp.leave_balances.get data.leave_type).remaining <
          (calculate_business_days data.start_date data.end_date : Int) then
        .error ⟨400, "Insufficient " ++ data.leave_type.value ++ " leave balance. Required: " ++
          toString (calculate_business_days data.start_date data.end_date) ++ ", Available: " ++
          toString (emp.leave_balances.get data.leave_type).remaining⟩
      else
        .ok ({ id := newReqId st.leave_db, employee_id := eid, leave_type := data.leave_type,
               start_date := data.start_date, end_date := data.end_date, reason := data.reason,
               status := .pending },
             { employee_db := st.employee_db,
               leave_db := st.leave_db ++
                 [{ id := newReqId st.leave_db, employee_id := eid, leave_type := data.leave_type,
                    start_date := data.start_date, end_date := data.end_date, reason := data.reason,
                    status := .pending }] })) := by
  simp only [create_leave_request, find_employee, he]

/-- C5: approving a stored non-approved request whose duration exceeds the
category's current remaining quota fails with the insufficient-balance error
and leaves the databases — the request's stored status and every balance —
exactly unchanged. -/
theorem approve_insufficient_atomic (st : AppState) (rid : Nat) (r : LeaveRequest)
    (emp : Employee)
    (hr : findReq st.leave_db rid = some r)
    (he : findEmp st.employee_db r.employee_id = some emp)
    (hnap : r.status ≠ .approved)
    (hins : (emp.leave_balances.get r.leave_type).remaining <
      (calculate_business_days r.start_date r.end_date : Int)) :
    update_leave_request_status st rid .approved =
      .error ⟨400, "Cannot approve. Employee has insufficient " ++
        r.leave_type.value ++ " balance."⟩ ∧
    runUpdateStatus st rid .approved = st := by
  have h1 : update_leave_request_status st rid .approved =
      .error ⟨400, "Cannot approve. Employee has insufficient " ++
        r.leave_type.value ++ " balance."⟩ := by
    rw [updateStatus_spec st rid .approved r emp hr he, if_pos ⟨rfl, hnap⟩, if_pos hins]
  exact ⟨h1, by simp only [runUpdateStatus, h1]⟩

/-- Witness for C5 at the exhausted-quota state `msgSt3`: approving pending
request 3 (10 business days) with 0 remaining fails. -/
theorem approve_insufficient_atomic_check :
    findReq msgSt3.leave_db 3 = some secondLeaveReq ∧
    findEmp msgSt3.employee_db secondLeaveReq.employee_id =
      some (msgSt3.employee_db.head (by decide)) ∧
    update_leave_request_status msgSt3 3 .approved =
      .error ⟨400, "Cannot approve. Employee has insufficient " ++
        LeaveType.vacation.value ++ " balance."⟩ :=
  ⟨by decide, by decide,
    (approve_insufficient_atomic msgSt3 3 secondLeaveReq
      (msgSt3.employee_db.head (by decide)) (by decide) (by decide)
      (by decide) (by decide)).1⟩

/-- C3: approving a stored non-approved request whose employee exists with
remaining quota at least the request's duration credits the category balance
by exactly `calculate_business_days` of the request's dates; re-approving an
already-approved request changes nothing at all (no double credit). -/
theorem approve_credits_duration (st : AppState) (rid : Nat) (r : LeaveRequest)
    (emp : Employee)
    (hr : findReq st.leave_db rid = some r)
    (he : findEmp st.employee_db r.employee_id = some emp) :
    (r.status ≠ .approved →
      (calculate_business_days r.start_date r.end_date : Int) ≤
        (emp.leave_balances.get r.leave_type).remaining →
      ∃ st', update_leave_request_status st rid .approved =
          .ok ({ r with status := .approved }, st') ∧
        empUsed st' r.employee_id r.leave_type =
          some ((emp.leave_balances.get r.leave_type).used +
            calculate_business_days r.start_date r.end_date)) ∧
    (r.status = .approved →
      update_leave_request_status st rid .approved = .ok (r, st)) := by
  constructor
  · intro hnap hge
    rw [updateStatus_spec st rid .approved r emp hr he, if_pos ⟨rfl, hnap⟩,
      if_neg (not_lt.mpr hge)]
    refine ⟨_, rfl, ?_⟩
    simp only [empUsed, findEmp_updateFirst_balance, he, Option.map_some', get_set]
  · intro hap
    rw [updateStatus_spec st rid .approved r emp hr he,
      if_neg (fun hc => hc.2 hap), if_neg (fun hc => hc.2 rfl)]
    have hfst : ({ r with status := LeaveStatus.approved } : LeaveRequest) = r := by
      rw [← hap]
    have h2 : updateFirst (fun e => e.id == r.employee_id)
        (fun e => { e with leave_balances :=
          e.leave_balances.set r.leave_type (emp.leave_balances.get r.leave_type) })
        st.employee_db = st.employee_db :=
      updateFirst_eq_self _ _ _ emp he (by rw [set_get])
    have h3 : updateFirst (fun q => q.id == rid)
        (fun q => { q with status := LeaveStatus.approved }) st.leave_db = st.leave_db :=
      updateFirst_eq_self _ _ _ r hr hfst
    show Except.ok (commitStatus st rid .approved r (emp.leave_balances.get r.leave_type)) =
      Except.ok (r, st)
    unfold commitStatus
    rw [h2, h3, hfst]

/-- Witness for C3 at the initial databases: request 1 is already approved, so
re-approving it returns the unchanged request and state. -/
theorem approve_credits_duration_check :
    findReq initialState.leave_db 1 = some initialRequest ∧
    findEmp initialState.employee_db initialRequest.employee_id = some bob ∧
    update_leave_request_status initialState 1 .approved = .ok (initialRequest, initialState) :=
  ⟨by decide, by decide,
    (approve_credits_duration initialState 1 initialRequest bob (by decide) (by decide)).2 rfl⟩

/-- C4: moving a stored approved request (whose employee exists) to rejected
or pending reclaims exactly the request's duration from the category balance;
consequently approving a pending request and then rejecting it restores the
balance's `used` to its value before the cycle. -/
theorem unapprove_reclaims_duration (st : AppState) (rid : Nat) (r : LeaveRequest)
    (emp : Employee) (ns : LeaveStatus)
    (hr : findReq st.leave_db rid = some r)
    (he : findEmp st.employee_db r.employee_id = some emp) :
    (r.status = .approved → (ns = .rejected ∨ ns = .pending) →
      ∃ st', update_leave_request_status st rid ns = .ok ({ r with status := ns }, st') ∧
        empUsed st' r.employee_id r.leave_type =
          some ((emp.leave_balances.get r.leave_type).used -
            calculate_business_days r.start_date r.end_date)) ∧
    (r.status = .pending →
      (calculate_business_days r.start_date r.end_date : Int) ≤
        (emp.leave_balances.get r.leave_type).remaining →
      ∃ st1 st2, update_leave_request_status st rid .approved =
          .ok ({ r with status := .approved }, st1) ∧
        update_leave_request_status st1 rid .rejected =
          .ok ({ r with status := .rejected }, st2) ∧
        empUsed st2 r.employee_id r.leave_type = empUsed st r.employee_id r.leave_type) := by
  constructor
  · intro hap hns
    have hnsa : ns ≠ .approved := by rcases hns with h | h <;> subst h <;> decide
    rw [updateStatus_spec st rid ns r emp hr he, if_neg (fun hc => hnsa hc.1),
      if_pos ⟨hap, hnsa⟩]
    refine ⟨_, rfl, ?_⟩
    simp only [empUsed, findEmp_updateFirst_balance, he, Option.map_some', get_set]
  · intro hp hge
    have hnap : r.status ≠ .approved := by rw [hp]; decide
    have h1 : update_leave_request_status st rid .approved =
        .ok ({ r with status := .approved },
          (commitStatus st rid .approved r
            { emp.leave_balances.get r.leave_type with
              used := (emp.leave_balances.get r.leave_type).used +
                calculate_business_days r.start_date r.end_date }).2) := by
      rw [updateStatus_spec st rid .approved r emp hr he, if_pos ⟨rfl, hnap⟩,
        if_neg (not_lt.mpr hge)]
      rfl
    have hr1 : findReq (commitStatus st rid .approved r
        { emp.leave_balances.get r.leave_type with
          used := (emp.leave_balances.get r.leave_type).used +
            calculate_business_days r.start_date r.end_date }).2.leave_db rid =
        some { r with status := .approved } := by
      rw [commitStatus_findReq, hr]; rfl
    have he1 : findEmp (commitStatus st rid .approved r
        { emp.leave_balances.get r.leave_type with
          used := (emp.leave_balances.get r.leave_type).used +
            calculate_business_days r.start_date r.end_date }).2.employee_db r.employee_id =
        some { emp with leave_balances := (emp.leave_balances.set r.leave_type
          { emp.leave_balances.get r.leave_type with
            used := (emp.leave_balances.get r.leave_type).used +
              calculate_business_days r.start_date r.end_date }) } := by
      rw [commitStatus_findEmp, he]; rfl
    have h2 : update_leave_request_status
        (commitStatus st rid .approved r
          { emp.leave_balances.get r.leave_type with
            used := (emp.leave_balances.get r.leave_type).used +
              calculate_business_days r.start_date r.end_date }).2 rid .rejected =
        .ok ({ r with status := .rejected },
          (commitStatus
            (commitStatus st rid .approved r
              { emp.leave_balances.get r.leave_type with
                used := (emp.leave_balances.get r.leave_type).used +
                  calculate_business_days r.start_date r.end_date }).2
            rid .rejected { r with status := .approved }
            { emp.leave_balances.get r.leave_type with
              used := (emp.leave_balances.get r.leave_type).used +
                calculate_business_days r.start_date r.end_date -
                calculate_business_days r.start_date r.end_date }).2) := by
      rw [updateStatus_spec _ rid .rejected { r with status := .approved }
        { emp with leave_balances := (emp.leave_balances.set r.leave_type
          { emp.leave_balances.get r.leave_type with
            used := (emp.leave_balances.get r.leave_type).used +
              calculate_business_days r.start_date r.end_date }) } hr1 he1,
        if_neg (fun hc => absurd hc.1 (by decide)), if_pos ⟨rfl, by decide⟩]
      simp only [get_set]
      rfl
    refine ⟨_, _, h1, h2, ?_⟩
    simp only [commitStatus, empUsed, findEmp_updateFirst_balance, he,
      Option.map_some', get_set, Option.some.injEq]
    omega

/-- Witness for C4 at the initial databases: rejecting the approved request 1
(3 business days) drops Bob's vacation `used` from 5 to 2. -/
theorem unapprove_reclaims_duration_check :
    findReq initialState.leave_db 1 = some initialRequest ∧
    findEmp initialState.employee_db initialRequest.employee_id = some bob ∧
    ∃ st', update_leave_request_status initialState 1 .rejected =
        .ok ({ initialRequest with status := .rejected }, st') ∧
      empUsed st' initialRequest.employee_id initialRequest.leave_type =
        some ((bob.leave_balances.get initialRequest.leave_type).used -
          calculate_business_days initialRequest.start_date initialRequest.end_date) :=
  ⟨by decide, by decide,
    (unapprove_reclaims_duration initialState 1 initialRequest bob .rejected
      (by decide) (by decide)).1 rfl (Or.inl rfl)⟩

theorem insuffCreate_ne_invalid (v t1 t2 : String) :
    ("Insufficient " ++ v ++ " leave balance. Required: " ++ t1 ++ ", Available: " ++ t2) ≠
      "End date must be after start date." := by
  intro h
  have h1 : ("Insufficient " ++ v ++ " leave balance. Required: " ++ t1 ++
      ", Available: " ++ t2).data.head? = some 'I' := by
    simp only [String.data_append]
    rfl
  rw [h] at h1
  exact absurd h1 (by decide)

/-- C6: creating a leave request for an existing employee fails with the
invalid-range error exactly when the computed duration is ≤ 0; otherwise it
fails with the insufficient-balance error exactly when remaining quota is
below the duration; otherwise it appends a new pending request and changes no
balance. -/
theorem create_leave_request_validation (st : AppState) (eid : Nat) (emp : Employee)
    (data : CreateLeaveRequest)
    (he : findEmp st.employee_db eid = some emp) :
    (create_leave_request st eid data = .error ⟨400, "End date must be after start date."⟩ ↔
      calculate_business_days data.start_date data.end_date ≤ 0) ∧
    (0 < calculate_business_days data.start_date data.end_date →
      (create_leave_request st eid data =
          .error ⟨400, "Insufficient " ++ data.leave_type.value ++ " leave balance. Required: " ++
            toString (calculate_business_days data.start_date data.end_date) ++ ", Available: " ++
            toString (emp.leave_balances.get data.leave_type).remaining⟩ ↔
        (emp.leave_balances.get data.leave_type).remaining <
          (calculate_business_days data.start_date data.end_date : Int))) ∧
    (0 < calculate_business_days data.start_date data.end_date →
      ¬((emp.leave_balances.get data.leave_type).remaining <
          (calculate_business_days data.start_date data.end_date : Int)) →
      ∃ nr st', create_leave_request st eid data = .ok (nr, st') ∧
        nr.status = .pending ∧ st'.employee_db = st.employee_db ∧
        st'.leave_db = st.leave_db ++ [nr]) := by
  have hspec := createLeave_spec st eid data emp he
  refine ⟨⟨?_, ?_⟩, fun hd => ⟨?_, ?_⟩, fun hd hrem => ?_⟩
  · intro h
    by_contra hgt
    rw [hspec, if_neg hgt] at h
    by_cases hrem : (emp.leave_balances.get data.leave_type).remaining <
        (calculate_business_days data.start_date data.end_date : Int)
    · rw [if_pos hrem] at h
      simp only [Except.error.injEq, HTTPError.mk.injEq, true_and] at h
      exact insuffCreate_ne_invalid _ _ _ h
    · rw [if_neg hrem] at h
      cases h
  · intro h
    rw [hspec, if_pos h]
  · intro h
    by_contra hrem
    rw [hspec, if_neg (not_le.mpr hd), if_neg hrem] at h
    cases h
  · intro hrem
    rw [hspec, if_neg (not_le.mpr hd), if_pos hrem]
  · rw [hspec, if_neg (not_le.mpr hd), if_neg hrem]
    exact ⟨_, _, rfl, rfl, rfl, rfl⟩

/-- Witness for C6 at the initial databases with a 15-business-day payload:
the duration is positive, so the invalid-range error does not occur. -/
theorem create_leave_request_validation_check :
    findEmp initialState.employee_db 1 = some alice ∧
    (create_leave_request initialState 1 bigLeavePayload =
        .error ⟨400, "End date must be after start date."⟩ ↔
      calculate_business_days bigLeavePayload.start_date bigLeavePayload.end_date ≤ 0) :=
  ⟨by decide,
    (create_leave_request_validation initialState 1 alice bigLeavePayload (by decide)).1⟩

/-- C8 (amended): an InsufficientBalance failure of `create_leave_request`
carries a message that includes both the required and the available units; an
InsufficientBalance failure of `update_leave_request_status` only names the
leave category — its message contains no digits, hence neither number. -/
theorem insufficient_balance_message_contents (st : AppState) (eid rid : Nat)
    (data : CreateLeaveRequest) (r : LeaveRequest) (emp emp2 : Employee)
    (hg : findEmp st.employee_db eid = some emp)
    (hr : findReq st.leave_db rid = some r)
    (he : findEmp st.employee_db r.employee_id = some emp2) :
    (0 < calculate_business_days data.start_date data.end_date →
      (emp.leave_balances.get data.leave_type).remaining <
        (calculate_business_days data.start_date data.end_date : Int) →
      ∃ p q : String, create_leave_request st eid data =
        .error ⟨400, p ++ toString (calculate_business_days data.start_date data.end_date) ++
          q ++ toString (emp.leave_balances.get data.leave_type).remaining⟩) ∧
    (r.status ≠ .approved →
      (emp2.leave_balances.get r.leave_type).remaining <
        (calculate_business_days r.start_date r.end_date : Int) →
      update_leave_request_status st rid .approved =
        .error ⟨400, "Cannot approve. Employee has insufficient " ++
          r.leave_type.value ++ " balance."⟩ ∧
      ∀ c ∈ ("Cannot approve. Employee has insufficient " ++
          r.leave_type.value ++ " balance.").data, ¬c.isDigit) := by
  constructor
  · intro hd hrem
    refine ⟨"Insufficient " ++ data.leave_type.value ++ " leave balance. Required: ",
      ", Available: ", ?_⟩
    rw [createLeave_spec st eid data emp hg, if_neg (not_le.mpr hd), if_pos hrem]
  · intro hnap hrem
    constructor
    · rw [updateStatus_spec st rid .approved r emp2 hr he, if_pos ⟨rfl, hnap⟩, if_pos hrem]
    · generalize r.leave_type = lt
      cases lt <;> decide

/-- Witness for C8's amended statement at the exhausted-quota state `msgSt3`:
approving pending request 3 fails and its message carries no digits. -/
theorem insufficient_balance_message_contents_check :
    findEmp msgSt3.employee_db 1 = some (msgSt3.employee_db.head (by decide)) ∧
    findReq msgSt3.leave_db 3 = some secondLeaveReq ∧
    findEmp msgSt3.employee_db secondLeaveReq.employee_id =
      some (msgSt3.employee_db.head (by decide)) ∧
    ∀ c ∈ ("Cannot approve. Employee has insufficient " ++
        secondLeaveReq.leave_type.value ++ " balance.").data, ¬c.isDigit := by
  refine ⟨by decide, by decide, by decide, ?_⟩
  intro c hc
  exact ((insufficient_balance_message_contents msgSt3 1 3 bigLeavePayload
    secondLeaveReq (msgSt3.employee_db.head (by decide))
    (msgSt3.employee_db.head (by decide))
    (by decide) (by decide) (by decide)).2 (by decide) (by decide)).2 c hc

/-- C8 counterexample: in the reachable state `msgSt3`, approving request 3
fails with InsufficientBalance (required 10, available 0) but the message
contains neither the required nor the available units — in fact no digit at
all. -/
theorem approve_error_message_lacks_numbers :
    Reachable msgSt3 ∧
    calculate_business_days secondLeaveReq.start_date secondLeaveReq.end_date = 10 ∧
    empRemaining msgSt3 1 .vacation = some 0 ∧
    update_leave_request_status msgSt3 3 .approved =
      .error ⟨400, "Cannot approve. Employee has insufficient vacation balance."⟩ ∧
    (¬∃ p q : String, "Cannot approve. Employee has insufficient vacation balance." =
      p ++ toString (10 : Nat) ++ q) ∧
    (¬∃ p q : String, "Cannot approve. Employee has insufficient vacation balance." =
      p ++ toString (0 : Int) ++ q) := by
  refine ⟨?_, by decide, by decide, rfl, ?_, ?_⟩
  · exact Reachable.step (Reachable.step (Reachable.step Reachable.init
      (Step.createLeave initialState msgSt1 1 bigLeavePayload bigLeaveReq rfl))
      (Step.createLeave msgSt1 msgSt2 1 secondLeavePayload secondLeaveReq rfl))
      (Step.updateLeaveStatus msgSt2 msgSt3 2 .approved
        { bigLeaveReq with status := .approved } rfl)
  · rintro ⟨p, q, hpq⟩
    have h1 : '1' ∈ ("Cannot approve. Employee has insufficient vacation balance." : String).data :=
      mem_data_of_append _ p (toString (10 : Nat)) q hpq '1' (by decide)
    exact absurd h1 (by decide)
  · rintro ⟨p, q, hpq⟩
    have h0 : '0' ∈ ("Cannot approve. Employee has insufficient vacation balance." : String).data :=
      mem_data_of_append _ p (toString (0 : Int)) q hpq '0' (by decide)
    exact absurd h0 (by decide)

/-- C1 is violated by the code via id recycling: delete employee 2, create a
new employee (which is assigned the recycled id 2 and fresh zero-used
balances), then reject the orphaned approved request 1 — the reclaim drives
the new employee's vacation `used` to −3 in a reachable state, breaking
`0 ≤ used`. -/
theorem balance_invariant_violated_by_id_reuse :
    Reachable bugSt3 ∧
    ∃ u : Int, empUsed bugSt3 2 .vacation = some u ∧ u < 0 := by
  constructor
  · exact Reachable.step (Reachable.step (Reachable.step Reachable.init
      (Step.deleteEmployee initialState bugSt1 2 rfl))
      (Step.createEmployee bugSt1 bugSt2 carolPayload carol rfl))
      (Step.updateLeaveStatus bugSt2 bugSt3 1 .rejected
        { initialRequest with status := .rejected } rfl)
  · exact ⟨-3, by decide, by decide⟩

theorem nodup_map_append_of_lt {β : Type} (l : List β) (x : β) (g : β → Nat)
    (h : (l.map g).Nodup) (hx : ∀ y ∈ l.map g, y < g x) : ((l ++ [x]).map g).Nodup := by
  simp only [List.map_append, List.map_cons, List.map_nil]
  exact nodup_append_singleton h (fun hmem => absurd (hx _ hmem) (lt_irrefl _))

/-- C10: in every reachable state, the ids of the stored employees are
pairwise distinct and the ids of the stored leave requests are pairwise
distinct. -/
theorem ids_nodup_invariant (st : AppState) (h : Reachable st) :
    (st.employee_db.map Employee.id).Nodup ∧ (st.leave_db.map LeaveRequest.id).Nodup := by
  induction h with
  | init => exact ⟨by decide, by decide⟩
  | step hy hs ih =>
    obtain ⟨ih1, ih2⟩ := ih
    cases hs with
    | createEmployee d e hc =>
      have h2 := congrArg Prod.snd hc
      subst h2
      constructor
      · exact nodup_map_append_of_lt _ _ Employee.id ih1
          (fun y hy2 => by
            obtain ⟨e', he', rfl⟩ := List.mem_map.mp hy2
            exact id_lt_newEmpId _ _ he')
      · exact ih2
    | updateEmployee eid d e hc =>
      obtain ⟨hdb, hldb⟩ := update_employee_ok_inv hc
      constructor
      · rw [hdb, updateFirst_map]
        · exact ih1
        · exact fun a => rfl
      · rw [hldb]
        exact ih2
    | deleteEmployee eid hc =>
      obtain ⟨emp, hdb, hldb⟩ := delete_employee_ok_inv hc
      constructor
      · rw [hdb]
        exact List.Nodup.sublist (List.Sublist.map _ (List.erase_sublist _ _)) ih1
      · rw [hldb]
        exact ih2
    | createLeave eid d r hc =>
      obtain ⟨hid, hdb, hldb⟩ := create_leave_request_ok_inv hc
      constructor
      · rw [hdb]
        exact ih1
      · rw [hldb]
        exact nodup_map_append_of_lt _ _ LeaveRequest.id ih2
          (fun y hy2 => by
            obtain ⟨r', hr', rfl⟩ := List.mem_map.mp hy2
            rw [hid]
            exact id_lt_newReqId _ _ hr')
    | updateLeaveStatus rid ns r hc =>
      obtain ⟨req, nb, hfind, hdb, hldb⟩ := update_status_ok_inv hc
      constructor
      · rw [hdb, updateFirst_map]
        · exact ih1
        · exact fun a => rfl
      · rw [hldb, updateFirst_map]
        · exact ih2
        · exact fun a => rfl

/-- Witness for C10 at the initial databases. -/
theorem ids_nodup_invariant_check :
    (initialState.employee_db.map Employee.id).Nodup ∧
    (initialState.leave_db.map LeaveRequest.id).Nodup :=
  ids_nodup_invariant initialState Reachable.init

/-- Witness for C9: a store holding one request whose employee id 99 resolves
to no employee. -/
theorem orphaned_request_update_not_found_check :
    findReq [{ initialRequest with employee_id := 99 }] 1 =
      some { initialRequest with employee_id := 99 } ∧
    findEmp ([] : List Employee) 99 = none ∧
    update_leave_request_status
        { employee_db := [], leave_db := [{ initialRequest with employee_id := 99 }] } 1 .approved =
      .error ⟨404, "Employee with ID " ++ toString (99 : Nat) ++ " not found"⟩ :=
  ⟨by decide, rfl,
    (orphaned_request_update_not_found
      { employee_db := [], leave_db := [{ initialRequest with employee_id := 99 }] }
      1 { initialRequest with employee_id := 99 } .approved (by decide) rfl).1⟩

end HR
